import Mathlib

/-!
Verification of the doodle-to-music engine in `src/script.js`.

Numeric model: the JavaScript numbers that matter here (coordinates, sizes,
times, gains) are embedded as rationals; `Math.floor` is the integer floor
on the rationals.  Oscillator frequency (`midiToFreq(note) * factor`) is the
only irrational quantity in the program; no claim constrains its numeric
value, so schedules record the midi note and the overtone factor instead of
the product.
-/

/-- Embeds `mapRange(value, inMin, inMax, outMin, outMax)`
(src/script.js line 108). -/
def mapRange (value inMin inMax outMin outMax : ℚ) : ℚ :=
  (value - inMin) * (outMax - outMin) / (inMax - inMin) + outMin

/-- `DIATONIC_MAJOR_INTERVALS` (src/script.js line 118). -/
def DIATONIC_MAJOR_INTERVALS : List ℤ := [0, 2, 4, 5, 7, 9, 11]

/-- `PENTATONIC_MAJOR_INTERVALS` (src/script.js line 117).  Declared in the
source but never selected: the yellow branch that would use it is commented
out. -/
def PENTATONIC_MAJOR_INTERVALS : List ℤ := [0, 2, 4, 7, 9]

/-- The record returned by `getColorOctaveAndScale`. -/
structure ScaleSpec where
  octaveOffset : ℤ
  scale : List ℤ
  deriving DecidableEq

/-- The five palette colors the `switch` in `getColorOctaveAndScale`
recognizes (after `toUpperCase`). -/
def paletteColors : List String :=
  ["#FF0000", "#00FF00", "#0000FF", "#FFFF00", "#000000"]

/-- `color.toUpperCase()` as the source applies it (src/script.js line
165): character-wise ASCII uppercasing of the color string.  (JavaScript
uppercasing agrees with this on the ASCII palette strings involved.) -/
def jsToUpper (s : String) : String := String.mk (s.data.map Char.toUpper)

/-- Embeds `getColorOctaveAndScale(color)` (src/script.js lines 159-178).
The source initializes `scale = DIATONIC_MAJOR_INTERVALS` and never
reassigns it (the yellow reassignment is commented out), so only
`octaveOffset` depends on the color. -/
def getColorOctaveAndScale (color : String) : ScaleSpec :=
  let c := jsToUpper color
  let octaveOffset : ℤ :=
    if c = "#FF0000" then 0
    else if c = "#00FF00" then 12
    else if c = "#0000FF" then -12
    else if c = "#FFFF00" then 0
    else if c = "#000000" then 0
    else 0
  { octaveOffset := octaveOffset, scale := DIATONIC_MAJOR_INTERVALS }

/-- `baseMidiRootNote` (src/script.js line 192). -/
def baseMidiRootNote : ℤ := 60

/-- The clamped scale-degree index computed by the play handler
(src/script.js lines 224-225):
`Math.max(0, Math.min(span - 1, Math.floor(mapRange(y, canvasHeight, 0, 0, span - 1))))`
where `span = scale.length * 2`. -/
def scaleDegreeIndex (y canvasHeight : ℚ) (span : ℕ) : ℤ :=
  max 0 (min ((span : ℤ) - 1) ⌊mapRange y canvasHeight 0 0 ((span : ℚ) - 1)⌋)

/-- The pitch derivation of the play handler (src/script.js lines 218-230):
look up the color scale, map `y` to a clamped degree index over two displayed
octaves, then `baseMidiRootNote + octaveOffset + 12 * octaveWithinCanvas +
scale[degreeIndex % scale.length]`. -/
def resolvePitch (y canvasHeight : ℚ) (color : String) : ℤ :=
  let s := getColorOctaveAndScale color
  let span := s.scale.length * 2
  let d := (scaleDegreeIndex y canvasHeight span).toNat
  baseMidiRootNote + s.octaveOffset + ((d / s.scale.length : ℕ) : ℤ) * 12 +
    s.scale.getD (d % s.scale.length) 0

/-- The pitch-mapping algorithm exactly as the spec words it (spec section
4.1): linearly map `y` from the interval from `canvasHeight` to `0` onto the
interval from `0` to `displaySpan - 1` (so `canvasHeight` goes to `0` and
`0` goes to `displaySpan - 1`), floor, clamp to that range, then
`60 + octaveOffset + 12 * floor(d / len) + intervals[d % len]`. -/
def specPitch (octaveOffset : ℤ) (intervals : List ℤ) (y canvasHeight : ℚ) : ℤ :=
  let displaySpan := intervals.length * 2
  let mapped : ℚ := (canvasHeight - y) * ((displaySpan : ℚ) - 1) / canvasHeight
  let d := (max 0 (min ((displaySpan : ℤ) - 1) ⌊mapped⌋)).toNat
  60 + octaveOffset + 12 * ((d / intervals.length : ℕ) : ℤ) +
    intervals.getD (d % intervals.length) 0

/-- `totalPlaybackDuration` (src/script.js line 191). -/
def totalPlaybackDuration : ℚ := 8

/-- `numTimeSteps = Math.floor(totalPlaybackDuration * 4)`
(src/script.js line 195). -/
def numTimeSteps : ℕ := (⌊totalPlaybackDuration * 4⌋).toNat

/-- `timeStepDuration = totalPlaybackDuration / numTimeSteps`
(src/script.js line 196). -/
def timeStepDuration : ℚ := totalPlaybackDuration / (numTimeSteps : ℚ)

/-- `Math.floor(mapRange(x, 0, canvas.width, 0, numTimeSteps - 1))`
(src/script.js line 202). -/
def slotIndex (x canvasWidth : ℚ) : ℤ :=
  ⌊mapRange x 0 canvasWidth 0 ((numTimeSteps : ℚ) - 1)⌋

/-- A drawn point as stored in `drawnPoints` (src/script.js line 66). -/
structure Sample where
  x : ℚ
  y : ℚ
  color : String
  size : ℚ
  deriving DecidableEq

/-- One scheduled tone of a `play()` pass: the slot it came from, its start
offset from the audio clock, and the arguments handed to
`createMusicBoxTone` (src/script.js lines 216-238). -/
structure ToneEvent where
  slot : ℕ
  startOffset : ℚ
  note : ℤ
  velocity : ℚ
  durationSec : ℚ
  deriving DecidableEq

/-- Insert `a` into `l` keeping `key` order; an element already in `l` with
an equal key stays in front of `a`, matching a stable comparator sort. -/
def insertBy (key : Sample → ℚ) (a : Sample) : List Sample → List Sample
  | [] => [a]
  | b :: l => if key a ≤ key b then a :: b :: l else b :: insertBy key a l

/-- Stable sort by `key`, embedding the JavaScript stable
`sort((p, q) => key(p) - key(q))` used at src/script.js lines 189 and 213:
two stable sorts under the same total key order produce the same list. -/
def sortBy (key : Sample → ℚ) : List Sample → List Sample
  | [] => []
  | a :: l => insertBy key a (sortBy key l)

/-- The first element of `l` attaining the minimum `key` value. -/
def firstMin (key : Sample → ℚ) : List Sample → Option Sample
  | [] => none
  | a :: l =>
    match firstMin key l with
    | none => some a
    | some m => some (if key m < key a then m else a)

/-- The ToneEvent built from the representative sample of slot `i`
(src/script.js lines 216-238): `scheduledTime = now + i * timeStepDuration`,
pitch from `resolvePitch`, and
`velocity = mapRange(size, minBrush, maxBrush, 0.2, 0.5)`,
`duration = mapRange(size, minBrush, maxBrush, 0.8, 1.5)`. -/
def toneOf (canvasHeight minBrush maxBrush : ℚ) (i : ℕ) (p : Sample) : ToneEvent :=
  { slot := i
    startOffset := (i : ℚ) * timeStepDuration
    note := resolvePitch p.y canvasHeight p.color
    velocity := mapRange p.size minBrush maxBrush 0.2 0.5
    durationSec := mapRange p.size minBrush maxBrush 0.8 1.5 }

/-- The tone slot `i` contributes, given the x-sorted snapshot: the source
pushes each sorted point whose in-range `slotIndex` equals `i` into the
slot's bucket (preserving order), sorts the bucket by `y` and plays its
first element (src/script.js lines 201-238).  An empty bucket yields
nothing. -/
def toneForSlot (canvasWidth canvasHeight minBrush maxBrush : ℚ)
    (sorted : List Sample) (i : ℕ) : Option ToneEvent :=
  let bucket := sorted.filter (fun p => slotIndex p.x canvasWidth = (i : ℤ))
  match sortBy (fun p => p.y) bucket with
  | [] => none
  | rep :: _ => some (toneOf canvasHeight minBrush maxBrush i rep)

/-- The play handler (src/script.js lines 181-240) as the ordered list of
ToneEvents it schedules: empty store is a logged no-op; otherwise snapshot
and x-sort the points, bucket them by slot index (the guard
`0 <= idx < numTimeSteps` drops out-of-range points), and emit one tone per
non-empty bucket in slot order. -/
def play (canvasWidth canvasHeight minBrush maxBrush : ℚ)
    (points : List Sample) : List ToneEvent :=
  if points = [] then []
  else
    (List.range numTimeSteps).filterMap
      (toneForSlot canvasWidth canvasHeight minBrush maxBrush
        (sortBy (fun p => p.x) points))

/-- `clearCanvas` resets `drawnPoints` to the empty list
(src/script.js lines 73-77). -/
def clearAll (_ : List Sample) : List Sample := []

/-- One scheduled automation event on the master gain parameter
(src/script.js lines 138-141). -/
inductive GainEvent where
  | setValue (value time : ℚ)
  | linearRamp (target time : ℚ)
  | expRamp (target time : ℚ)
  deriving DecidableEq

/-- The overtone frequency factors `[1, 2.01, 3.03, 4.05, 5.8]`
(src/script.js line 131). -/
def overtoneFactors : List ℚ := [1, 2.01, 3.03, 4.05, 5.8]

/-- The overtone relative gains `[1, 0.7, 0.5, 0.3, 0.15]`
(src/script.js line 132). -/
def overtoneGains : List ℚ := [1, 0.7, 0.5, 0.3, 0.15]

/-- JavaScript `x || d` on an optionally-present number: a missing or zero
(falsy) value gives the fallback, embedding `overtoneGains[index] || 0.1`
(src/script.js line 149). -/
def jsOrDefault (x : Option ℚ) (d : ℚ) : ℚ :=
  match x with
  | none => d
  | some v => if v = 0 then d else v

/-- One oscillator scheduled by `createMusicBoxTone`: its frequency is
`midiToFreq midiNote * factor` (src/script.js line 148), recorded here by
its two exact components, and it runs from `startTime` to `stopTime`. -/
structure OscSchedule where
  midiNote : ℤ
  factor : ℚ
  gain : ℚ
  startTime : ℚ
  stopTime : ℚ
  deriving DecidableEq

/-- Everything `createMusicBoxTone` schedules on the audio backend. -/
structure ToneSchedule where
  envelope : List GainEvent
  oscs : List OscSchedule
  deriving DecidableEq

/-- Embeds `createMusicBoxTone(time, midiNote, velocity, duration)`
(src/script.js lines 122-157): the four master-envelope automation events
in program order, and one oscillator per overtone factor with its relative
gain, started at `time` and stopped at `time + duration + 0.1`.  The
source's default arguments `velocity = 0.3`, `duration = 1.0` are always
overridden by the one call site. -/
def createMusicBoxTone (time : ℚ) (midiNote : ℤ) (velocity : ℚ)
    (duration : ℚ) : ToneSchedule :=
  { envelope :=
      [ GainEvent.setValue 0 time
      , GainEvent.linearRamp velocity (time + 0.005)
      , GainEvent.expRamp (velocity * 0.1) (time + duration * 0.3)
      , GainEvent.expRamp 0.0001 (time + duration) ]
    oscs :=
      (List.range overtoneFactors.length).map fun i =>
        { midiNote := midiNote
          factor := overtoneFactors.getD i 0
          gain := jsOrDefault overtoneGains[i]? 0.1
          startTime := time
          stopTime := time + duration + 0.1 } }

/-- The emptiness test `drawnPoints.length === 0` guarding playback
(src/script.js line 182). -/
def isEmptyStore (points : List Sample) : Bool := points.isEmpty

/-! ### Helper lemmas -/

/-- Every color, recognized or not, gets the diatonic-major scale: the
source never reassigns `scale`. -/
lemma getColor_scale (c : String) :
    (getColorOctaveAndScale c).scale = DIATONIC_MAJOR_INTERVALS := rfl

/-- A color whose uppercasing is outside the palette takes the default
branch of the `switch`. -/
lemma getColor_unknown (c : String) (hc : jsToUpper c ∉ paletteColors) :
    getColorOctaveAndScale c = ⟨0, DIATONIC_MAJOR_INTERVALS⟩ := by
  simp only [paletteColors, List.mem_cons, List.not_mem_nil, or_false,
    not_or] at hc
  obtain ⟨h1, h2, h3, h4, h5⟩ := hc
  simp [getColorOctaveAndScale, h1, h2, h3, h4, h5]

/-- The inverted vertical map of the play handler, rewritten without the
division by a negated denominator. -/
lemma mapRange_inverted (y H z : ℚ) :
    mapRange y H 0 0 z = (H - y) * z / H := by
  unfold mapRange
  rw [sub_zero, add_zero, zero_sub, div_neg, ← neg_div, ← neg_mul, neg_sub]

/-- The horizontal map of the play handler in simplified form. -/
lemma mapRange_zero (x W z : ℚ) : mapRange x 0 W 0 z = x * z / W := by
  unfold mapRange
  rw [sub_zero, sub_zero, sub_zero, add_zero]

lemma numTimeSteps_eq : numTimeSteps = 32 := by
  norm_num [numTimeSteps, totalPlaybackDuration]
  decide

/-! ### Claim theorems -/

/-- C7: any color string whose uppercasing is not a recognized palette value
takes the default branch of `getColorOctaveAndScale`: octave offset 0 and
the diatonic-major intervals.  The lookup is a total function, so it never
fails and the resulting note number is defined for every color. -/
theorem unknownColor_default_scale (c : String)
    (hc : jsToUpper c ∉ paletteColors) :
    getColorOctaveAndScale c =
      { octaveOffset := 0, scale := [0, 2, 4, 5, 7, 9, 11] } := by
  rw [getColor_unknown c hc]
  rfl

/-- Witness for C7 at the concrete unknown color "pink". -/
theorem unknownColor_default_scale_witness :
    getColorOctaveAndScale "pink" =
      { octaveOffset := 0, scale := [0, 2, 4, 5, 7, 9, 11] } :=
  unknownColor_default_scale "pink" (by decide)

/-- C10: yellow, black, red and any unrecognized color all carry octave
offset 0 and the same (diatonic-major) scale, so they produce exactly the
same note number for every y and canvas height. -/
theorem yellow_black_red_unknown_same_pitch (y H : ℚ) (c : String)
    (hc : jsToUpper c ∉ paletteColors) :
    resolvePitch y H "#FFFF00" = resolvePitch y H "#000000" ∧
    resolvePitch y H "#000000" = resolvePitch y H "#FF0000" ∧
    resolvePitch y H "#FF0000" = resolvePitch y H c := by
  have e1 : getColorOctaveAndScale "#FFFF00" =
      { octaveOffset := 0, scale := DIATONIC_MAJOR_INTERVALS } := rfl
  have e2 : getColorOctaveAndScale "#000000" =
      { octaveOffset := 0, scale := DIATONIC_MAJOR_INTERVALS } := rfl
  have e3 : getColorOctaveAndScale "#FF0000" =
      { octaveOffset := 0, scale := DIATONIC_MAJOR_INTERVALS } := rfl
  refine ⟨?_, ?_, ?_⟩ <;>
    simp only [resolvePitch, e1, e2, e3, getColor_unknown c hc]

/-- Witness for C10 at y = 100, canvas height 400, unknown color "pink". -/
theorem yellow_black_red_unknown_same_pitch_witness :
    resolvePitch 100 400 "#FFFF00" = resolvePitch 100 400 "#000000" ∧
    resolvePitch 100 400 "#000000" = resolvePitch 100 400 "#FF0000" ∧
    resolvePitch 100 400 "#FF0000" = resolvePitch 100 400 "pink" :=
  yellow_black_red_unknown_same_pitch 100 400 "pink" (by decide)

/-- C8: clearing leaves the store empty, and playing the cleared store
emits no ToneEvents, for every prior store state and configuration. -/
theorem clearAll_play_noop (points : List Sample) (W H minB maxB : ℚ) :
    isEmptyStore (clearAll points) = true ∧
    play W H minB maxB (clearAll points) = [] :=
  ⟨rfl, rfl⟩

/-- C9: playback is a pure function of the sample sequence and the
canvas/brush configuration: equal inputs give the same ordered ToneEvent
list (the embedding of the handler draws on no other state and no
randomness). -/
theorem play_deterministic (W H minB maxB : ℚ) (p q : List Sample)
    (h : p = q) :
    play W H minB maxB p = play W H minB maxB q := by
  rw [h]

/-- Witness for C9 on a concrete two-sample store. -/
theorem play_deterministic_witness :
    play 600 400 2 20 [⟨10, 400, "#FF0000", 5⟩, ⟨590, 0, "#00FF00", 20⟩] =
      play 600 400 2 20 [⟨10, 400, "#FF0000", 5⟩, ⟨590, 0, "#00FF00", 20⟩] :=
  play_deterministic 600 400 2 20 _ _ rfl

/-- C6: `createMusicBoxTone(t, n, v, d)` schedules exactly the four
master-envelope events (gain 0 at t, linear ramp to v at t + 0.005,
exponential ramp to v * 0.1 at t + 0.3 d, exponential ramp to 0.0001 at
t + d); for positive loudness no exponential ramp targets exactly zero;
and all five overtone oscillators start at t and stop at t + d + 0.1. -/
theorem createMusicBoxTone_events (t : ℚ) (n : ℤ) (v d : ℚ) (hv : 0 < v) :
    (createMusicBoxTone t n v d).envelope =
      [ GainEvent.setValue 0 t
      , GainEvent.linearRamp v (t + 0.005)
      , GainEvent.expRamp (v * 0.1) (t + d * 0.3)
      , GainEvent.expRamp 0.0001 (t + d) ] ∧
    (∀ tgt tm, GainEvent.expRamp tgt tm ∈ (createMusicBoxTone t n v d).envelope →
      tgt ≠ 0) ∧
    (createMusicBoxTone t n v d).oscs.length = 5 ∧
    (∀ o ∈ (createMusicBoxTone t n v d).oscs,
      o.startTime = t ∧ o.stopTime = t + d + 0.1) := by
  refine ⟨rfl, ?_, rfl, ?_⟩
  · intro tgt tm hmem
    simp only [createMusicBoxTone, List.mem_cons, List.not_mem_nil, or_false] at hmem
    rcases hmem with h | h | h | h
    · simp at h
    · simp at h
    · injection h with h1 h2
      subst h1
      exact mul_ne_zero (ne_of_gt hv) (by norm_num)
    · injection h with h1 h2
      subst h1
      norm_num
  · intro o ho
    simp only [createMusicBoxTone, List.mem_map, List.mem_range] at ho
    obtain ⟨i, -, rfl⟩ := ho
    exact ⟨rfl, rfl⟩

/-- Witness for C6 at t = 2, note 60, loudness 3/10, duration 1. -/
theorem createMusicBoxTone_events_witness :
    (0 : ℚ) < 3 / 10 ∧
    (createMusicBoxTone 2 60 (3 / 10) 1).envelope =
      [ GainEvent.setValue 0 2
      , GainEvent.linearRamp (3 / 10) (2 + 0.005)
      , GainEvent.expRamp (3 / 10 * 0.1) (2 + 1 * 0.3)
      , GainEvent.expRamp 0.0001 (2 + 1) ] :=
  ⟨by norm_num, (createMusicBoxTone_events 2 60 (3 / 10) 1 (by norm_num)).1⟩

/-- C1: for every sample y, canvas height and color, the note number the
play handler computes coincides with the spec's pitch-mapping algorithm
applied to the color's octave offset and intervals. -/
theorem resolvePitch_eq_specPitch (y H : ℚ) (c : String) :
    resolvePitch y H c =
      specPitch (getColorOctaveAndScale c).octaveOffset
        (getColorOctaveAndScale c).scale y H := by
  simp only [resolvePitch, specPitch, scaleDegreeIndex, baseMidiRootNote,
    mapRange_inverted]
  ring

/-- C3: for canvasWidth > 0 and x in [0, canvasWidth], the computed slot
index lies in [0, numTimeSteps), reaching numTimeSteps - 1 exactly at
x = canvasWidth and never reaching numTimeSteps, so the guard that discards
out-of-range slot indices never fires for an in-bounds x. -/
theorem slotIndex_bounds (x W : ℚ) (hW : 0 < W) (hx0 : 0 ≤ x) (hxW : x ≤ W) :
    0 ≤ slotIndex x W ∧ slotIndex x W < (numTimeSteps : ℤ) ∧
      (slotIndex x W = (numTimeSteps : ℤ) - 1 ↔ x = W) := by
  have hW0 : W ≠ 0 := ne_of_gt hW
  have hmap : slotIndex x W = ⌊x * 31 / W⌋ := by
    rw [slotIndex, mapRange_zero, numTimeSteps_eq]
    norm_num
  have hle : x * 31 / W ≤ 31 := by
    rw [div_le_iff₀ hW]
    nlinarith
  refine ⟨?_, ?_, ?_⟩
  · rw [hmap]
    exact Int.floor_nonneg.mpr (div_nonneg (by positivity) hW.le)
  · rw [hmap, numTimeSteps_eq]
    have : (⌊x * 31 / W⌋ : ℤ) ≤ 31 := by
      have := Int.floor_le_floor hle
      simpa using this
    omega
  · rw [hmap, numTimeSteps_eq]
    constructor
    · intro h
      have h31 : (31 : ℚ) ≤ x * 31 / W := by
        have := Int.floor_eq_iff.mp (show ⌊x * 31 / W⌋ = 31 by omega)
        exact_mod_cast this.1
      have : (31 : ℚ) * W ≤ x * 31 := (le_div_iff₀ hW).mp h31
      have hWx : W ≤ x := by nlinarith
      exact le_antisymm hxW hWx
    · intro h
      subst h
      have : x * 31 / x = 31 := by
        field_simp
      rw [this]
      norm_num

/-- Witness for C3 at x = canvasWidth = 600 (the boundary) together with
the hypotheses it discharges. -/
theorem slotIndex_bounds_witness :
    0 ≤ slotIndex 600 600 ∧ slotIndex 600 600 < (numTimeSteps : ℤ) ∧
      (slotIndex 600 600 = (numTimeSteps : ℤ) - 1 ↔ (600 : ℚ) = 600) :=
  slotIndex_bounds 600 600 (by norm_num) (by norm_num) (by norm_num)

/-- For y at or below the top edge (y ≤ 0), the clamped degree index of the
two-octave display saturates at its maximum, 13. -/
lemma scaleDegreeIndex_top (y H : ℚ) (hH : 0 < H) (hy : y ≤ 0) :
    scaleDegreeIndex y H 14 = 13 := by
  unfold scaleDegreeIndex
  rw [mapRange_inverted]
  have h13 : (13 : ℚ) ≤ (H - y) * (((14 : ℕ) : ℚ) - 1) / H := by
    rw [le_div_iff₀ hH]
    push_cast
    nlinarith
  have hfl : (13 : ℤ) ≤ ⌊(H - y) * (((14 : ℕ) : ℚ) - 1) / H⌋ := by
    rw [Int.le_floor]
    exact_mod_cast h13
  omega

/-- For y at or below the bottom edge (y ≥ canvasHeight), the clamped
degree index saturates at 0. -/
lemma scaleDegreeIndex_bottom (y H : ℚ) (hH : 0 < H) (hy : H ≤ y) :
    scaleDegreeIndex y H 14 = 0 := by
  unfold scaleDegreeIndex
  rw [mapRange_inverted]
  have hnum : (H - y) * (((14 : ℕ) : ℚ) - 1) ≤ 0 := by
    push_cast
    nlinarith
  have hle : (H - y) * (((14 : ℕ) : ℚ) - 1) / H ≤ 0 :=
    div_nonpos_iff.mpr (Or.inr ⟨hnum, hH.le⟩)
  have hfl : ⌊(H - y) * (((14 : ℕ) : ℚ) - 1) / H⌋ ≤ 0 := Int.floor_nonpos hle
  omega

/-- C5: with a positive canvas height, a y below 0 produces the same note
number as y = 0, and a y above canvasHeight the same note number as
y = canvasHeight: out-of-range y is clamped, never rejected. -/
theorem resolvePitch_clamps_y (c : String) (H y : ℚ) (hH : 0 < H) :
    (y < 0 → resolvePitch y H c = resolvePitch 0 H c) ∧
    (H < y → resolvePitch y H c = resolvePitch H H c) := by
  have hlen : (getColorOctaveAndScale c).scale.length * 2 = 14 := rfl
  constructor
  · intro hy
    simp only [resolvePitch, hlen]
    rw [scaleDegreeIndex_top y H hH hy.le, scaleDegreeIndex_top 0 H hH le_rfl]
  · intro hy
    simp only [resolvePitch, hlen]
    rw [scaleDegreeIndex_bottom y H hH hy.le, scaleDegreeIndex_bottom H H hH le_rfl]

/-- Witness for C5 at canvas height 400 with y = -5 and y = 405. -/
theorem resolvePitch_clamps_y_witness :
    ((-5 : ℚ) < 0 → resolvePitch (-5) 400 "#FF0000" = resolvePitch 0 400 "#FF0000") ∧
    ((400 : ℚ) < 405 → resolvePitch 405 400 "#FF0000" = resolvePitch 400 400 "#FF0000") :=
  ⟨fun h => (resolvePitch_clamps_y "#FF0000" 400 (-5) (by norm_num)).1 h,
   fun h => (resolvePitch_clamps_y "#FF0000" 400 405 (by norm_num)).2 h⟩

/-- The clamped degree index of the two-octave display never leaves
[0, 13]. -/
lemma scaleDegreeIndex_mem (y H : ℚ) :
    0 ≤ scaleDegreeIndex y H 14 ∧ scaleDegreeIndex y H 14 ≤ 13 := by
  unfold scaleDegreeIndex
  omega

/-- Raising y (moving down the canvas) never raises the clamped degree
index. -/
lemma scaleDegreeIndex_anti (H y1 y2 : ℚ) (hH : 0 < H) (h : y1 ≤ y2) :
    scaleDegreeIndex y2 H 14 ≤ scaleDegreeIndex y1 H 14 := by
  unfold scaleDegreeIndex
  rw [mapRange_inverted, mapRange_inverted]
  have hC : (0 : ℚ) ≤ ((14 : ℕ) : ℚ) - 1 := by push_cast; norm_num
  have hnum : (H - y2) * (((14 : ℕ) : ℚ) - 1) ≤ (H - y1) * (((14 : ℕ) : ℚ) - 1) :=
    mul_le_mul_of_nonneg_right (by linarith) hC
  have hmono := (div_le_div_iff_of_pos_right hH).mpr hnum
  have hfl := Int.floor_le_floor hmono
  omega

/-- Within one displayed two-octave window of the diatonic-major scale, a
larger degree index never lowers the pitch contribution. -/
lemma diatonic_body_mono : ∀ a b : Fin 14, (a : ℕ) ≤ (b : ℕ) →
    (((a : ℕ) / DIATONIC_MAJOR_INTERVALS.length : ℕ) : ℤ) * 12 +
        DIATONIC_MAJOR_INTERVALS.getD ((a : ℕ) % DIATONIC_MAJOR_INTERVALS.length) 0 ≤
      (((b : ℕ) / DIATONIC_MAJOR_INTERVALS.length : ℕ) : ℤ) * 12 +
        DIATONIC_MAJOR_INTERVALS.getD ((b : ℕ) % DIATONIC_MAJOR_INTERVALS.length) 0 := by
  decide

/-- C4: for a fixed color and positive canvas height, the note number is
monotone non-increasing in y: a sample drawn lower on the canvas never
sounds higher. -/
theorem resolvePitch_antitone_y (c : String) (H y1 y2 : ℚ) (hH : 0 < H)
    (h : y1 ≤ y2) :
    resolvePitch y2 H c ≤ resolvePitch y1 H c := by
  have hscale : (getColorOctaveAndScale c).scale = DIATONIC_MAJOR_INTERVALS := rfl
  have hlen : DIATONIC_MAJOR_INTERVALS.length * 2 = 14 := rfl
  simp only [resolvePitch, hscale, hlen]
  have h2 := scaleDegreeIndex_anti H y1 y2 hH h
  have hm1 := scaleDegreeIndex_mem y1 H
  have hm2 := scaleDegreeIndex_mem y2 H
  have hd : (scaleDegreeIndex y2 H 14).toNat ≤ (scaleDegreeIndex y1 H 14).toNat :=
    Int.toNat_le_toNat h2
  have hb1 : (scaleDegreeIndex y1 H 14).toNat < 14 := by omega
  have hb2 : (scaleDegreeIndex y2 H 14).toNat < 14 := by omega
  have key := diatonic_body_mono ⟨(scaleDegreeIndex y2 H 14).toNat, hb2⟩
    ⟨(scaleDegreeIndex y1 H 14).toNat, hb1⟩ hd
  simp only [Fin.val_mk] at key
  omega

/-- Witness for C4 at color red, canvas height 400, y1 = 50 ≤ y2 = 350. -/
theorem resolvePitch_antitone_y_witness :
    resolvePitch 350 400 "#FF0000" ≤ resolvePitch 50 400 "#FF0000" :=
  resolvePitch_antitone_y "#FF0000" 400 50 350 (by norm_num) (by norm_num)

/-- The head of an ordered insert: the new element lands in front exactly
when its key is at most the old head's key. -/
lemma head_insertBy (key : Sample → ℚ) (a : Sample) (l : List Sample) :
    (insertBy key a l).head? =
      some (match l.head? with
            | none => a
            | some b => if key a ≤ key b then a else b) := by
  cases l with
  | nil => rfl
  | cons b t =>
    simp only [insertBy, List.head?_cons]
    split
    · rfl
    · rfl

/-- The head of the stable y-sort is the first minimum-key element: the
code's pick of `pointsInSlot[0]` after the in-slot sort is exactly the
min-y sample with first-in-order tie-breaking. -/
lemma head_sortBy (key : Sample → ℚ) (l : List Sample) :
    (sortBy key l).head? = firstMin key l := by
  induction l with
  | nil => rfl
  | cons a t ih =>
    simp only [sortBy, firstMin]
    rw [head_insertBy, ih]
    cases h : firstMin key t with
    | none => rfl
    | some m =>
      simp only []
      rcases le_or_lt (key a) (key m) with hle | hlt
      · rw [if_pos hle, if_neg (not_lt.mpr hle)]
      · rw [if_neg (not_le.mpr hlt), if_pos hlt]

/-- `toneForSlot` is the head of the y-sorted bucket, mapped through
`toneOf`. -/
lemma toneForSlot_eq_head (W H minB maxB : ℚ) (sorted : List Sample) (i : ℕ) :
    toneForSlot W H minB maxB sorted i =
      (sortBy (fun p => p.y)
        (sorted.filter (fun p => slotIndex p.x W = (i : ℤ)))).head?.map
        (toneOf H minB maxB i) := by
  unfold toneForSlot
  cases h : sortBy (fun p => p.y)
      (sorted.filter (fun p => slotIndex p.x W = (i : ℤ))) with
  | nil => simp [h]
  | cons rep rest => simp [h]

/-- Every tone `toneForSlot` emits for slot j is tagged with slot j. -/
lemma toneForSlot_slot (W H minB maxB : ℚ) (sorted : List Sample) :
    ∀ (j : ℕ) (e : ToneEvent),
      toneForSlot W H minB maxB sorted j = some e → e.slot = j := by
  intro j e h
  rw [toneForSlot_eq_head] at h
  obtain ⟨rep, hrep, rfl⟩ := Option.map_eq_some'.mp h
  rfl

/-- Tones produced for slots below n never pass a filter for slot i ≥ n. -/
lemma filter_slot_out (g : ℕ → Option ToneEvent)
    (hg : ∀ j e, g j = some e → e.slot = j) (n i : ℕ) (hni : n ≤ i) :
    ((List.range n).filterMap g).filter (fun e => e.slot = i) = [] := by
  rw [List.filter_eq_nil_iff]
  intro e he
  obtain ⟨j, hj, hje⟩ := List.mem_filterMap.mp he
  have hslot := hg j e hje
  have hjn := List.mem_range.mp hj
  simp only [decide_eq_true_eq]
  omega

/-- Filtering the slot-ordered filterMap output down to slot i < n leaves
exactly what slot i contributed. -/
lemma filter_slot_range (g : ℕ → Option ToneEvent)
    (hg : ∀ j e, g j = some e → e.slot = j) :
    ∀ (n i : ℕ), i < n →
      ((List.range n).filterMap g).filter (fun e => e.slot = i) = (g i).toList := by
  intro n
  induction n with
  | zero => intro i h; omega
  | succ n ih =>
    intro i hi
    rw [List.range_succ, List.filterMap_append, List.filter_append]
    rcases Nat.lt_or_ge i n with h | h
    · rw [ih i h]
      have hnil : (List.filterMap g [n]).filter (fun e => e.slot = i) = [] := by
        cases hgn : g n with
        | none => simp [hgn]
        | some e =>
          have := hg n e hgn
          simp only [List.filterMap_cons, hgn, List.filterMap_nil,
            List.filter_cons, this, decide_eq_true_eq]
          rw [if_neg (by omega)]
          rfl
      rw [hnil, List.append_nil]
    · have hin : i = n := by omega
      subst hin
      rw [filter_slot_out g hg i i le_rfl, List.nil_append]
      cases hgn : g i with
      | none => simp [hgn]
      | some e =>
        have := hg i e hgn
        simp [hgn, this]

/-- C2: in one play() pass, each slot i contributes exactly the tones of
its representative: nothing when no sample maps to the slot, and exactly
one ToneEvent otherwise, built (note, loudness, duration) from the first
minimum-y sample of the slot's bucket in x-sorted order — so min-y wins,
ties go to the first in x-sorted order, and the other samples of the slot
contribute no event. -/
theorem play_slot_representative (W H minB maxB : ℚ) (points : List Sample)
    (i : ℕ) (hne : points ≠ []) (hi : i < numTimeSteps) :
    (play W H minB maxB points).filter (fun e => e.slot = i) =
      ((firstMin (fun p => p.y)
          ((sortBy (fun p => p.x) points).filter
            (fun p => slotIndex p.x W = (i : ℤ)))).map
        (toneOf H minB maxB i)).toList := by
  unfold play
  rw [if_neg hne,
    filter_slot_range _ (toneForSlot_slot W H minB maxB _) numTimeSteps i hi,
    toneForSlot_eq_head, head_sortBy]

/-- Witness for C2: two samples share x = 300 (slot 15) on a 600 by 400
canvas; the filter of the play output at slot 15 is the single tone of the
slot's first minimum-y sample. -/
theorem play_slot_representative_witness :
    (play 600 400 2 20
        [⟨300, 350, "#FF0000", 5⟩, ⟨300, 50, "#FF0000", 5⟩]).filter
        (fun e => e.slot = 15) =
      ((firstMin (fun p => p.y)
          ((sortBy (fun p => p.x)
              [⟨300, 350, "#FF0000", 5⟩, ⟨300, 50, "#FF0000", 5⟩]).filter
            (fun p => slotIndex p.x 600 = (15 : ℤ)))).map
        (toneOf 400 2 20 15)).toList :=
  play_slot_representative 600 400 2 20
    [⟨300, 350, "#FF0000", 5⟩, ⟨300, 50, "#FF0000", 5⟩] 15
    (by simp) (by rw [numTimeSteps_eq]; norm_num)
